import Mathlib

/-!
Verification of the egl::Surface lifetime/presentation shim
(Source/ThirdParty/ANGLE/src/libANGLE/Surface.cpp) and of the
WebCore::FetchOptions encode/decode pair
(Source/WebCore/loader/FetchOptions.h), as shallow embeddings.

Machine integers are modelled as Nat/Int with explicit wrap-around where
a C++ cast can change the value; fatal contract violations (ASSERT in
the C++ source) are modelled as `none` of an `Option` result; backend
failures propagated with ANGLE_TRY are modelled as `Except.error`.
-/

namespace Angle

/-! ### Surface lifecycle state machine

`Surface::setIsCurrent` (Surface.cpp lines 122-136) and
`Surface::onDestroy` (lines 138-145) manipulate `mCurrentCount` and
`mDestroyed`, and call the private teardown routine `Surface::destroy`
(lines 94-105), which ends in `delete this`.  The state below records
the two member fields plus two ghost fields: `deleted` marks that
`delete this` has run (the terminal state -- no further member function
may be invoked on the object), and `destroyCount` counts how many times
the teardown routine has been performed. -/

structure SurfaceSt where
  mCurrentCount : Nat
  mDestroyed : Bool
  deleted : Bool
  destroyCount : Nat
deriving DecidableEq, Repr

/-- The freshly constructed state: `mCurrentCount(0), mDestroyed(false)`
(constructor initializer list, Surface.cpp lines 36-37). -/
def SurfaceSt.init : SurfaceSt :=
  { mCurrentCount := 0, mDestroyed := false, deleted := false, destroyCount := 0 }

/-- The three lifecycle operations a caller can issue. -/
inductive SurfaceOp where
  | setCurrentTrue
  | setCurrentFalse
  | onDestroy
deriving DecidableEq, Repr

/-- The effect of `Surface::destroy` on the lifecycle fields: the
teardown is performed once more and `delete this` runs. -/
def SurfaceSt.performDestroy (s : SurfaceSt) : SurfaceSt :=
  { s with deleted := true, destroyCount := s.destroyCount + 1 }

/-- One lifecycle operation, straight from Surface.cpp.
`none` is a contract violation: either the operation is invoked on an
already deleted object (use after free), or `setIsCurrent(false)` fires
the `ASSERT(mCurrentCount > 0)` at line 130. -/
def stepOp (s : SurfaceSt) (op : SurfaceOp) : Option SurfaceSt :=
  if s.deleted then none
  else
    match op with
    | .setCurrentTrue => some { s with mCurrentCount := s.mCurrentCount + 1 }
    | .setCurrentFalse =>
        if s.mCurrentCount = 0 then none
        else
          let s' : SurfaceSt := { s with mCurrentCount := s.mCurrentCount - 1 }
          if s'.mCurrentCount = 0 ∧ s'.mDestroyed then some s'.performDestroy
          else some s'
    | .onDestroy =>
        let s' : SurfaceSt := { s with mDestroyed := true }
        if s'.mCurrentCount = 0 then some s'.performDestroy
        else some s'

/-- Run a sequence of lifecycle operations from a given state. -/
def runFrom (s : SurfaceSt) : List SurfaceOp → Option SurfaceSt
  | [] => some s
  | op :: ops =>
      match stepOp s op with
      | none => none
      | some s' => runFrom s' ops

/-- Run a sequence of lifecycle operations on a fresh Surface. -/
def runOps (ops : List SurfaceOp) : Option SurfaceSt :=
  runFrom SurfaceSt.init ops

/-- The reachable-state invariant: while live, no teardown has been
performed; once deleted, the teardown was performed exactly once, the
destroyed flag is set and the current count is zero. -/
def SurfaceInv (s : SurfaceSt) : Prop :=
  (s.deleted = false ∧ s.destroyCount = 0) ∨
  (s.deleted = true ∧ s.destroyCount = 1 ∧ s.mDestroyed = true ∧ s.mCurrentCount = 0)

theorem stepOp_inv {s s' : SurfaceSt} {op : SurfaceOp}
    (h : stepOp s op = some s') (hs : SurfaceInv s) : SurfaceInv s' := by
  rcases hs with ⟨hdel, hcount⟩ | ⟨hdel, _, _, _⟩
  · cases op <;> simp only [stepOp, hdel, if_false, Bool.false_eq_true] at h
    · cases h
      left; exact ⟨rfl, hcount⟩
    · by_cases hz : s.mCurrentCount = 0
      · simp [hz] at h
      · simp only [hz, if_false] at h
        split at h
        · cases h
          right
          refine ⟨rfl, by simp [SurfaceSt.performDestroy, hcount], ?_, ?_⟩
          · simp only [SurfaceSt.performDestroy]
            rename_i hcond
            exact hcond.2
          · simp only [SurfaceSt.performDestroy]
            rename_i hcond
            exact hcond.1
        · cases h
          left; exact ⟨rfl, hcount⟩
    · split at h
      · cases h
        right
        rename_i hz
        exact ⟨rfl, by simp [SurfaceSt.performDestroy, hcount], rfl, hz⟩
      · cases h
        left; exact ⟨rfl, hcount⟩
  · simp [stepOp, hdel] at h

theorem runFrom_inv {s s' : SurfaceSt} {ops : List SurfaceOp}
    (h : runFrom s ops = some s') (hs : SurfaceInv s) : SurfaceInv s' := by
  induction ops generalizing s with
  | nil => cases h; exact hs
  | cons op ops ih =>
      simp only [runFrom] at h
      cases hstep : stepOp s op with
      | none => rw [hstep] at h; cases h
      | some s₁ =>
          rw [hstep] at h
          exact ih h (stepOp_inv hstep hs)

theorem runOps_inv {s : SurfaceSt} {ops : List SurfaceOp}
    (h : runOps ops = some s) : SurfaceInv s :=
  runFrom_inv h (Or.inl ⟨rfl, rfl⟩)

/-- The destroyed flag is only ever set by an `onDestroy` operation. -/
theorem runFrom_destroyed_source {s s' : SurfaceSt} {ops : List SurfaceOp}
    (h : runFrom s ops = some s') (h' : s'.mDestroyed = true) :
    s.mDestroyed = true ∨ SurfaceOp.onDestroy ∈ ops := by
  induction ops generalizing s with
  | nil => cases h; exact Or.inl h'
  | cons op ops ih =>
      simp only [runFrom] at h
      cases hstep : stepOp s op with
      | none => rw [hstep] at h; cases h
      | some s₁ =>
          rw [hstep] at h
          rcases ih h with h₁ | h₁
          · cases op
            · simp only [stepOp] at hstep
              split at hstep
              · cases hstep
              · cases hstep
                exact Or.inl h₁
            · simp only [stepOp] at hstep
              split at hstep
              · cases hstep
              · split at hstep
                · cases hstep
                · split at hstep <;> cases hstep <;>
                    simp only [SurfaceSt.performDestroy] at h₁ <;> exact Or.inl h₁
            · exact Or.inr (List.mem_cons_self _ _)
          · exact Or.inr (List.mem_cons_of_mem _ h₁)

theorem runFrom_cons {s s' : SurfaceSt} {op : SurfaceOp} (ops : List SurfaceOp)
    (h : stepOp s op = some s') : runFrom s (op :: ops) = runFrom s' ops := by
  simp [runFrom, h]

theorem runFrom_append (s : SurfaceSt) (xs ys : List SurfaceOp) :
    runFrom s (xs ++ ys) = (runFrom s xs).bind (fun s' => runFrom s' ys) := by
  induction xs generalizing s with
  | nil => simp [runFrom]
  | cons op xs ih =>
      simp only [List.cons_append, runFrom]
      cases stepOp s op with
      | none => simp
      | some s₁ => simp [ih]

theorem runFrom_replicate_true (n : Nat) (c k : Nat) (d : Bool) :
    runFrom ⟨c, d, false, k⟩ (List.replicate n .setCurrentTrue) =
      some ⟨c + n, d, false, k⟩ := by
  induction n generalizing c with
  | zero => simp [runFrom]
  | succ n ih =>
      simp only [List.replicate_succ, runFrom, stepOp]
      simpa [Nat.add_comm, Nat.add_left_comm] using ih (c + 1)

theorem runFrom_replicate_false (n : Nat) (k : Nat) :
    runFrom ⟨n + 1, true, false, k⟩ (List.replicate (n + 1) .setCurrentFalse) =
      some ⟨0, true, true, k + 1⟩ := by
  induction n with
  | zero => simp [runFrom, stepOp, SurfaceSt.performDestroy]
  | succ n ih =>
      have hstep :
          stepOp ⟨n + 2, true, false, k⟩ .setCurrentFalse = some ⟨n + 1, true, false, k⟩ := by
        simp [stepOp]
      rw [List.replicate_succ]
      simp only [runFrom, hstep]
      exact ih

/-- C1: for every finite sequence of setIsCurrent(true)/setIsCurrent(false)/
onDestroy operations on a Surface that stays within the contract (no
setIsCurrent(false) at count zero, no operation on a deleted object),
teardown is not performed until onDestroy has been called and the current
count has returned to zero: whenever the run ends in a torn-down state,
an onDestroy occurs in the sequence, the destroyed flag is set, and the
count is zero. -/
theorem surface_teardown_deferred (ops : List SurfaceOp) (s : SurfaceSt)
    (h : runOps ops = some s) (hdel : s.deleted = true) :
    SurfaceOp.onDestroy ∈ ops ∧ s.mDestroyed = true ∧ s.mCurrentCount = 0 := by
  rcases runOps_inv h with ⟨hlive, _⟩ | ⟨_, _, hdest, hcount⟩
  · rw [hdel] at hlive; cases hlive
  · refine ⟨?_, hdest, hcount⟩
    rcases runFrom_destroyed_source h hdest with h₁ | h₁
    · cases h₁
    · exact h₁

theorem surface_teardown_deferred_witness :
    runOps [SurfaceOp.setCurrentTrue, SurfaceOp.onDestroy, SurfaceOp.setCurrentFalse] =
      some ⟨0, true, true, 1⟩ ∧
    SurfaceOp.onDestroy ∈
        [SurfaceOp.setCurrentTrue, SurfaceOp.onDestroy, SurfaceOp.setCurrentFalse] ∧
    (⟨0, true, true, 1⟩ : SurfaceSt).mDestroyed = true ∧
    (⟨0, true, true, 1⟩ : SurfaceSt).mCurrentCount = 0 := by
  refine ⟨by decide, ?_⟩
  have h := surface_teardown_deferred
    [SurfaceOp.setCurrentTrue, SurfaceOp.onDestroy, SurfaceOp.setCurrentFalse]
    ⟨0, true, true, 1⟩ (by decide) (by decide)
  exact ⟨h.1, h.2⟩

/-- C2: teardown is performed exactly once.  First conjunct: no contract-
respecting sequence of operations performs teardown twice (the teardown
count of any reachable state is at most one).  Second conjunct: making the
surface current n times, calling onDestroy, then releasing it n times
performs teardown exactly once -- for n = 0 this is onDestroy with count
already zero tearing down immediately, for n > 0 the deferred teardown
fires at the last release. -/
theorem surface_teardown_exactly_once :
    (∀ (ops : List SurfaceOp) (s : SurfaceSt), runOps ops = some s → s.destroyCount ≤ 1) ∧
    (∀ n : Nat,
      runOps (List.replicate n .setCurrentTrue ++
        SurfaceOp.onDestroy :: List.replicate n .setCurrentFalse) =
      some ⟨0, true, true, 1⟩) := by
  constructor
  · intro ops s h
    rcases runOps_inv h with ⟨_, hc⟩ | ⟨_, hc, _, _⟩ <;> simp [hc]
  · intro n
    rw [runOps, runFrom_append]
    have h₁ := runFrom_replicate_true n 0 0 false
    rw [show SurfaceSt.init = ⟨0, false, false, 0⟩ from rfl, h₁]
    cases n with
    | zero => simp [runFrom, stepOp, SurfaceSt.performDestroy]
    | succ n =>
        have hstep :
            stepOp ⟨0 + (n + 1), false, false, 0⟩ .onDestroy =
              some ⟨n + 1, true, false, 0⟩ := by
          simp [stepOp]
        rw [Option.some_bind, runFrom_cons _ hstep]
        exact runFrom_replicate_false n 0

theorem surface_teardown_exactly_once_witness :
    (⟨0, true, true, 1⟩ : SurfaceSt).destroyCount ≤ 1 ∧
    runOps (List.replicate 2 .setCurrentTrue ++
        SurfaceOp.onDestroy :: List.replicate 2 .setCurrentFalse) =
      some ⟨0, true, true, 1⟩ := by
  refine ⟨?_, surface_teardown_exactly_once.2 2⟩
  exact surface_teardown_exactly_once.1 [SurfaceOp.onDestroy] ⟨0, true, true, 1⟩ (by decide)

/-- C9: `setIsCurrent(true)` increments the current count unconditionally
(destroyed flag, deleted flag and teardown count all unchanged -- in
particular it never triggers teardown, even when the destroyed flag is
already set), and a destroyed-pending surface made current once more has
its teardown deferred until the count returns to zero again: from count
c+1 with the destroyed flag set, one setIsCurrent(true) and c+2
setIsCurrent(false) calls end in exactly one teardown. -/
theorem setIsCurrent_true_increments_only :
    (∀ s : SurfaceSt, s.deleted = false →
      stepOp s .setCurrentTrue = some { s with mCurrentCount := s.mCurrentCount + 1 }) ∧
    (∀ c : Nat,
      runFrom ⟨c + 1, true, false, 0⟩
        (SurfaceOp.setCurrentTrue :: List.replicate (c + 2) .setCurrentFalse) =
      some ⟨0, true, true, 1⟩) := by
  constructor
  · intro s h
    simp [stepOp, h]
  · intro c
    have hstep :
        stepOp ⟨c + 1, true, false, 0⟩ .setCurrentTrue = some ⟨c + 2, true, false, 0⟩ := by
      simp [stepOp]
    rw [runFrom_cons _ hstep]
    exact runFrom_replicate_false (c + 1) 0

theorem setIsCurrent_true_increments_only_witness :
    stepOp ⟨3, true, false, 0⟩ .setCurrentTrue = some ⟨4, true, false, 0⟩ ∧
    runFrom ⟨1, true, false, 0⟩
        (SurfaceOp.setCurrentTrue :: List.replicate 2 .setCurrentFalse) =
      some ⟨0, true, true, 1⟩ :=
  ⟨setIsCurrent_true_increments_only.1 ⟨3, true, false, 0⟩ rfl,
   setIsCurrent_true_increments_only.2 0⟩

/-! ### Teardown event order

`Surface::destroy` (Surface.cpp lines 94-105) calls
`defaultFramebuffer->destroyDefault(display)` and
`mImplementation->destroy(...)` and then executes `delete this`, which
runs the destructor `Surface::~Surface` (lines 76-92): the destructor
releases the bound texture (backend `releaseTexImage`, then
`releaseTexImageFromSurface` on the texture), then frees the default
framebuffer, then frees the implementation.  We record the observable
teardown steps as an event trace. -/

inductive TdEvent where
  | implReleaseTexImage
  | textureReleaseTexImageFromSurface
  | framebufferDestroyDefault
  | implDestroy
  | deleteDefaultFramebuffer
  | deleteImplementation
deriving DecidableEq, Repr

/-- Event trace of `Surface::~Surface` (lines 76-92), parameterised by
whether a texture is bound (`mTexture.get()`), whether the default
framebuffer exists, and whether the implementation exists. -/
def destructorEvents (hasTexture hasFramebuffer hasImpl : Bool) : List TdEvent :=
  (if hasTexture then
      (if hasImpl then [TdEvent.implReleaseTexImage] else []) ++
        [TdEvent.textureReleaseTexImageFromSurface]
    else []) ++
  (if hasFramebuffer then [TdEvent.deleteDefaultFramebuffer] else []) ++
  (if hasImpl then [TdEvent.deleteImplementation] else [])

/-- Event trace of `Surface::destroy` (lines 94-105): destroy the default
framebuffer against the display, destroy the implementation against the
display, then `delete this` (which appends the destructor's trace). -/
def destroyEvents (hasTexture hasFramebuffer hasImpl : Bool) : List TdEvent :=
  (if hasFramebuffer then [TdEvent.framebufferDestroyDefault] else []) ++
  (if hasImpl then [TdEvent.implDestroy] else []) ++
  destructorEvents hasTexture hasFramebuffer hasImpl

/-- C3 counterexample: the claim states that on actual teardown the bound
texture's claim on the surface is released BEFORE the default framebuffer
is torn down via `destroyDefault`.  On a surface with a bound texture, a
framebuffer, and an implementation, the code performs
`destroyDefault` first and releases the texture's claim only inside
`delete this`, so the claimed order is false. -/
theorem destroy_order_counterexample :
    ¬ ((destroyEvents true true true).indexOf TdEvent.textureReleaseTexImageFromSurface <
        (destroyEvents true true true).indexOf TdEvent.framebufferDestroyDefault) := by
  decide

/-- C3 amended: when a Surface is actually torn down, the default
framebuffer is first torn down via its destroy-while-attached-to-display
contract, then the backend implementation via its contract, and finally
the Surface object itself is released; releasing the Surface object in
turn releases the bound texture's claim (backend release, then the
texture's back-reference), then frees the framebuffer, then frees the
implementation.  Formally: every teardown trace is a sublist of the
canonical order below, and each event occurs exactly when its
participant is present. -/
theorem destroy_order :
    ∀ hasTexture hasFramebuffer hasImpl : Bool,
      (destroyEvents hasTexture hasFramebuffer hasImpl).Sublist
        [TdEvent.framebufferDestroyDefault, TdEvent.implDestroy,
         TdEvent.implReleaseTexImage, TdEvent.textureReleaseTexImageFromSurface,
         TdEvent.deleteDefaultFramebuffer, TdEvent.deleteImplementation] ∧
      (TdEvent.framebufferDestroyDefault ∈ destroyEvents hasTexture hasFramebuffer hasImpl ↔
        hasFramebuffer = true) ∧
      (TdEvent.implDestroy ∈ destroyEvents hasTexture hasFramebuffer hasImpl ↔
        hasImpl = true) ∧
      (TdEvent.implReleaseTexImage ∈ destroyEvents hasTexture hasFramebuffer hasImpl ↔
        (hasTexture = true ∧ hasImpl = true)) ∧
      (TdEvent.textureReleaseTexImageFromSurface ∈
          destroyEvents hasTexture hasFramebuffer hasImpl ↔ hasTexture = true) ∧
      (TdEvent.deleteDefaultFramebuffer ∈ destroyEvents hasTexture hasFramebuffer hasImpl ↔
        hasFramebuffer = true) ∧
      (TdEvent.deleteImplementation ∈ destroyEvents hasTexture hasFramebuffer hasImpl ↔
        hasImpl = true) := by
  decide

/-! ### Texture binding

`Surface::bindTexImage` (Surface.cpp lines 227-236) and
`Surface::releaseTexImage` (lines 238-247).  The surface-side state is
`mTexture` (the local binding, a texture id or nothing) together with the
set of texture ids currently carrying a back-reference to this surface
(set by `texture->bindTexImageFromSurface(this)`, cleared by
`texture->releaseTexImageFromSurface()`).  Backend calls wrapped in
ANGLE_TRY are parameterised by a `backendOk` flag; a backend failure is
`Except.error`; a fired ASSERT is `none`. -/

structure TexBindState where
  mTexture : Option Nat
  sourcedTextures : List Nat
deriving DecidableEq, Repr

/-- `Surface::bindTexImage(texture, buffer)`: `ASSERT(!mTexture.get())`
(line 229), then `ANGLE_TRY(mImplementation->bindTexImage(...))`, then
`texture->bindTexImageFromSurface(this)` and `mTexture.set(texture)`. -/
def bindTexImage (backendOk : Bool) (s : TexBindState) (texture : Nat) :
    Option (Except Unit TexBindState) :=
  if s.mTexture.isSome then none
  else if backendOk then
    some (.ok { mTexture := some texture, sourcedTextures := texture :: s.sourcedTextures })
  else some (.error ())

/-- `Surface::releaseTexImage(buffer)`:
`ANGLE_TRY(mImplementation->releaseTexImage(buffer))` first (line 240),
then `ASSERT(mTexture.get())` (line 242), then
`mTexture->releaseTexImageFromSurface()` and `mTexture.set(nullptr)`. -/
def releaseTexImage (backendOk : Bool) (s : TexBindState) :
    Option (Except Unit TexBindState) :=
  if backendOk then
    match s.mTexture with
    | none => none
    | some t => some (.ok { mTexture := none, sourcedTextures := s.sourcedTextures.erase t })
  else some (.error ())

/-- C4: `bindTexImage` with a texture already bound is a fatal contract
violation whatever the backend would answer (first conjunct: never a
silent replacement); with no texture bound and backend success, the
supplied texture is marked as sourced from this surface and the binding
is recorded locally (second conjunct). -/
theorem bindTexImage_contract (backendOk : Bool) (s : TexBindState) (texture : Nat) :
    (s.mTexture.isSome = true → bindTexImage backendOk s texture = none) ∧
    (s.mTexture = none →
      bindTexImage true s texture =
        some (.ok { mTexture := some texture,
                    sourcedTextures := texture :: s.sourcedTextures })) := by
  constructor
  · intro h
    simp [bindTexImage, h]
  · intro h
    simp [bindTexImage, h]

theorem bindTexImage_contract_witness :
    bindTexImage true ⟨some 5, [5]⟩ 7 = none ∧
    bindTexImage true ⟨none, []⟩ 7 = some (.ok ⟨some 7, [7]⟩) :=
  ⟨(bindTexImage_contract true ⟨some 5, [5]⟩ 7).1 rfl,
   (bindTexImage_contract true ⟨none, []⟩ 7).2 rfl⟩

/-- C5: `releaseTexImage` consults the backend first -- a backend failure
is propagated as an error even when no texture is bound (first conjunct,
showing the backend call precedes the binding check); on backend success
it is a fatal contract violation when no texture is bound, in particular
without any prior successful bind (second conjunct); and when a texture
is bound it clears both the texture's back-reference and the local
binding (third conjunct). -/
theorem releaseTexImage_contract (s : TexBindState) :
    (releaseTexImage false s = some (.error ())) ∧
    (s.mTexture = none → releaseTexImage true s = none) ∧
    (∀ t : Nat, s.mTexture = some t →
      releaseTexImage true s =
        some (.ok { mTexture := none, sourcedTextures := s.sourcedTextures.erase t })) := by
  refine ⟨rfl, ?_, ?_⟩
  · intro h
    simp [releaseTexImage, h]
  · intro t h
    simp [releaseTexImage, h]

theorem releaseTexImage_contract_witness :
    releaseTexImage false ⟨none, []⟩ = some (.error ()) ∧
    releaseTexImage true ⟨none, []⟩ = none ∧
    releaseTexImage true ⟨some 7, [7]⟩ = some (.ok ⟨none, []⟩) :=
  ⟨(releaseTexImage_contract ⟨none, []⟩).1,
   (releaseTexImage_contract ⟨none, []⟩).2.1 rfl,
   (releaseTexImage_contract ⟨some 7, [7]⟩).2.2 7 rfl⟩

/-! ### Constructor attribute parsing and size/post-sub-buffer queries

`Surface::Surface` (Surface.cpp lines 32-74), `isPostSubBufferSupported`
(lines 172-175), `getWidth`/`getHeight` (lines 217-225).  EGL constants
carry their standard values; attribute values are EGLint.  The C++ casts
`static_cast<size_t>` (EGLint to 64-bit unsigned) and
`static_cast<EGLint>` (to 32-bit signed) and `static_cast<EGLenum>`
(to 32-bit unsigned) are modelled with explicit wrap-around. -/

def EGL_TRUE : Int := 1
def EGL_FALSE : Int := 0
def EGL_WIDTH : Nat := 0x3057
def EGL_HEIGHT : Nat := 0x3056
def EGL_FIXED_SIZE_ANGLE : Nat := 0x3201
def EGL_TEXTURE_FORMAT : Nat := 0x3080
def EGL_TEXTURE_TARGET : Nat := 0x3081
def EGL_NO_TEXTURE : Nat := 0x305C
def EGL_POST_SUB_BUFFER_SUPPORTED_NV : Nat := 0x30BE
def EGL_FLEXIBLE_SURFACE_COMPATIBILITY_SUPPORTED_ANGLE : Nat := 0x33A6
def EGL_DIRECT_COMPOSITION_ANGLE : Nat := 0x33A5
def EGL_SURFACE_ORIENTATION_ANGLE : Nat := 0x33A8
def EGL_WINDOW_BIT : Nat := 0x0004
def EGL_PBUFFER_BIT : Nat := 0x0001
def EGL_PIXMAP_BIT : Nat := 0x0002

/-- `static_cast<size_t>` of an EGLint value: wrap into [0, 2^64). -/
def toSizeT (x : Int) : Nat := (x % (2 ^ 64 : Int)).toNat

/-- `static_cast<EGLint>` of a size_t value: truncate to 32 bits and
reinterpret as two's-complement signed. -/
def natToEGLint (n : Nat) : Int :=
  if (n : Int) % (2 ^ 32 : Int) < (2 ^ 31 : Int) then (n : Int) % (2 ^ 32 : Int)
  else (n : Int) % (2 ^ 32 : Int) - (2 ^ 32 : Int)

/-- `static_cast<EGLenum>` of an EGLint value: wrap into [0, 2^32). -/
def toEGLenum (x : Int) : Nat := (x % (2 ^ 32 : Int)).toNat

/-- `egl::AttributeMap`: key to EGLint value map; `get(key, default)`
returns the stored value or the default. -/
structure AttributeMap where
  entries : List (Nat × Int)
deriving DecidableEq, Repr

def AttributeMap.get (m : AttributeMap) (key : Nat) (defaultValue : Int) : Int :=
  match m.entries.find? (fun p => p.1 == key) with
  | some p => p.2
  | none => defaultValue

/-- The constructor-computed Surface fields that the sampled claims are
about (remaining members -- pixel aspect ratio, render buffer, swap
behavior, config formats -- are constants or config copies no claim
concerns). -/
structure SurfaceCtor where
  mType : Nat
  mPostSubBufferRequested : Bool
  mFlexibleSurfaceCompatibilityRequested : Bool
  mDirectComposition : Bool
  mFixedSize : Bool
  mFixedWidth : Nat
  mFixedHeight : Nat
  mTextureFormat : Nat
  mTextureTarget : Nat
  mOrientation : Int
deriving DecidableEq, Repr

/-- `Surface::Surface(surfaceType, config, attributes)` body
(Surface.cpp lines 54-73), restricted to the fields above. -/
def mkSurface (surfaceType : Nat) (attributes : AttributeMap) : SurfaceCtor :=
  let fixedSize := attributes.get EGL_FIXED_SIZE_ANGLE EGL_FALSE == EGL_TRUE
  { mType := surfaceType
    mPostSubBufferRequested :=
      attributes.get EGL_POST_SUB_BUFFER_SUPPORTED_NV EGL_FALSE == EGL_TRUE
    mFlexibleSurfaceCompatibilityRequested :=
      attributes.get EGL_FLEXIBLE_SURFACE_COMPATIBILITY_SUPPORTED_ANGLE EGL_FALSE == EGL_TRUE
    mDirectComposition := attributes.get EGL_DIRECT_COMPOSITION_ANGLE EGL_FALSE == EGL_TRUE
    mFixedSize := fixedSize
    mFixedWidth := if fixedSize then toSizeT (attributes.get EGL_WIDTH 0) else 0
    mFixedHeight := if fixedSize then toSizeT (attributes.get EGL_HEIGHT 0) else 0
    mTextureFormat :=
      if surfaceType ≠ EGL_WINDOW_BIT then
        toEGLenum (attributes.get EGL_TEXTURE_FORMAT (EGL_NO_TEXTURE : Int))
      else EGL_NO_TEXTURE
    mTextureTarget :=
      if surfaceType ≠ EGL_WINDOW_BIT then
        toEGLenum (attributes.get EGL_TEXTURE_TARGET (EGL_NO_TEXTURE : Int))
      else EGL_NO_TEXTURE
    mOrientation := attributes.get EGL_SURFACE_ORIENTATION_ANGLE 0 }

/-- `Surface::isPostSubBufferSupported` (lines 172-175), with the
backend's `isPostSubBufferSupported()` answer passed in. -/
def SurfaceCtor.isPostSubBufferSupported (s : SurfaceCtor) (implSupported : Bool) : Bool :=
  s.mPostSubBufferRequested && implSupported

/-- `Surface::getWidth` (lines 217-220), with the backend's live
`getWidth()` answer passed in. -/
def SurfaceCtor.getWidth (s : SurfaceCtor) (implWidth : Int) : Int :=
  if s.mFixedSize then natToEGLint s.mFixedWidth else implWidth

/-- `Surface::getHeight` (lines 222-225), with the backend's live
`getHeight()` answer passed in. -/
def SurfaceCtor.getHeight (s : SurfaceCtor) (implHeight : Int) : Int :=
  if s.mFixedSize then natToEGLint s.mFixedHeight else implHeight

theorem natToEGLint_toSizeT {x : Int} (h1 : -(2 ^ 31 : Int) ≤ x) (h2 : x < (2 ^ 31 : Int)) :
    natToEGLint (toSizeT x) = x := by
  unfold natToEGLint toSizeT
  have hnn : (0 : Int) ≤ x % (2 ^ 64 : Int) := Int.emod_nonneg x (by norm_num)
  rw [Int.toNat_of_nonneg hnn]
  split <;> omega

/-- C6: `isPostSubBufferSupported()` is true exactly when the
`EGL_POST_SUB_BUFFER_SUPPORTED_NV` constructor attribute was `EGL_TRUE`
and the backend reports support; every other combination yields false. -/
theorem isPostSubBufferSupported_iff
    (surfaceType : Nat) (attributes : AttributeMap) (implSupported : Bool) :
    (mkSurface surfaceType attributes).isPostSubBufferSupported implSupported = true ↔
      (attributes.get EGL_POST_SUB_BUFFER_SUPPORTED_NV EGL_FALSE = EGL_TRUE ∧
        implSupported = true) := by
  simp [mkSurface, SurfaceCtor.isPostSubBufferSupported]

/-- C7: a Surface constructed with the `EGL_FIXED_SIZE_ANGLE` attribute
`EGL_TRUE` and EGLint width/height attributes w and h reports exactly w
and h from `getWidth()`/`getHeight()` whatever the backend's live size;
a Surface that is not fixed-size reports exactly the backend's width and
height. -/
theorem getWidth_getHeight_spec
    (surfaceType : Nat) (attributes : AttributeMap) (implWidth implHeight : Int) :
    (attributes.get EGL_FIXED_SIZE_ANGLE EGL_FALSE = EGL_TRUE →
      -(2 ^ 31 : Int) ≤ attributes.get EGL_WIDTH 0 →
      attributes.get EGL_WIDTH 0 < (2 ^ 31 : Int) →
      -(2 ^ 31 : Int) ≤ attributes.get EGL_HEIGHT 0 →
      attributes.get EGL_HEIGHT 0 < (2 ^ 31 : Int) →
      (mkSurface surfaceType attributes).getWidth implWidth = attributes.get EGL_WIDTH 0 ∧
      (mkSurface surfaceType attributes).getHeight implHeight =
        attributes.get EGL_HEIGHT 0) ∧
    (attributes.get EGL_FIXED_SIZE_ANGLE EGL_FALSE ≠ EGL_TRUE →
      (mkSurface surfaceType attributes).getWidth implWidth = implWidth ∧
      (mkSurface surfaceType attributes).getHeight implHeight = implHeight) := by
  constructor
  · intro hfix hw1 hw2 hh1 hh2
    constructor
    · simp only [mkSurface, SurfaceCtor.getWidth, hfix, beq_self_eq_true, if_true]
      exact natToEGLint_toSizeT hw1 hw2
    · simp only [mkSurface, SurfaceCtor.getHeight, hfix, beq_self_eq_true, if_true]
      exact natToEGLint_toSizeT hh1 hh2
  · intro hfix
    constructor
    · simp [mkSurface, SurfaceCtor.getWidth, hfix]
    · simp [mkSurface, SurfaceCtor.getHeight, hfix]

theorem getWidth_getHeight_spec_witness :
    ((mkSurface EGL_WINDOW_BIT
        ⟨[(EGL_FIXED_SIZE_ANGLE, 1), (EGL_WIDTH, 800), (EGL_HEIGHT, 600)]⟩).getWidth 33 = 800 ∧
     (mkSurface EGL_WINDOW_BIT
        ⟨[(EGL_FIXED_SIZE_ANGLE, 1), (EGL_WIDTH, 800), (EGL_HEIGHT, 600)]⟩).getHeight 44 = 600) ∧
    ((mkSurface EGL_WINDOW_BIT ⟨[]⟩).getWidth 33 = 33 ∧
     (mkSurface EGL_WINDOW_BIT ⟨[]⟩).getHeight 44 = 44) := by
  constructor
  · have h := (getWidth_getHeight_spec EGL_WINDOW_BIT
      ⟨[(EGL_FIXED_SIZE_ANGLE, 1), (EGL_WIDTH, 800), (EGL_HEIGHT, 600)]⟩ 33 44).1
      (by decide) (by decide) (by decide) (by decide) (by decide)
    simpa using h
  · have h := (getWidth_getHeight_spec EGL_WINDOW_BIT ⟨[]⟩ 33 44).2 (by decide)
    simpa using h

/-- C8: window-kind construction leaves texture format and target at
`EGL_NO_TEXTURE` for every attribute map (the attributes are never
read), while any non-window kind reads them from the attribute map with
`EGL_NO_TEXTURE` as default; the third conjunct records that an absent
attribute therefore yields `EGL_NO_TEXTURE` for non-window kinds too. -/
theorem textureFormat_target_spec (attributes : AttributeMap) :
    ((mkSurface EGL_WINDOW_BIT attributes).mTextureFormat = EGL_NO_TEXTURE ∧
     (mkSurface EGL_WINDOW_BIT attributes).mTextureTarget = EGL_NO_TEXTURE) ∧
    (∀ surfaceType : Nat, surfaceType ≠ EGL_WINDOW_BIT →
      (mkSurface surfaceType attributes).mTextureFormat =
        toEGLenum (attributes.get EGL_TEXTURE_FORMAT (EGL_NO_TEXTURE : Int)) ∧
      (mkSurface surfaceType attributes).mTextureTarget =
        toEGLenum (attributes.get EGL_TEXTURE_TARGET (EGL_NO_TEXTURE : Int))) ∧
    toEGLenum (EGL_NO_TEXTURE : Int) = EGL_NO_TEXTURE := by
  refine ⟨⟨by simp [mkSurface], by simp [mkSurface]⟩, ?_, by decide⟩
  intro surfaceType hty
  exact ⟨by simp [mkSurface, hty], by simp [mkSurface, hty]⟩

theorem textureFormat_target_spec_witness :
    (mkSurface EGL_WINDOW_BIT ⟨[(EGL_TEXTURE_FORMAT, 0x3080), (EGL_TEXTURE_TARGET, 0x3082)]⟩).mTextureFormat =
      EGL_NO_TEXTURE ∧
    (mkSurface EGL_PBUFFER_BIT ⟨[(EGL_TEXTURE_FORMAT, 0x3080)]⟩).mTextureFormat = 0x3080 := by
  constructor
  · exact (textureFormat_target_spec
      ⟨[(EGL_TEXTURE_FORMAT, 0x3080), (EGL_TEXTURE_TARGET, 0x3082)]⟩).1.1
  · have h := ((textureFormat_target_spec ⟨[(EGL_TEXTURE_FORMAT, 0x3080)]⟩).2.1
      EGL_PBUFFER_BIT (by decide)).1
    rw [h]
    decide

end Angle

namespace WebCore

/-! ### FetchOptions encode/decode

`WebCore::FetchOptions` (Source/WebCore/loader/FetchOptions.h).  The
five nested enums are taken verbatim from lines 37-41. -/

inductive Destination where
  | EmptyString | Audio | Document | Embed | Font | Image | Manifest | Object
  | Report | Script | Serviceworker | Sharedworker | Style | Track | Video
  | Worker | Xslt
deriving DecidableEq, Repr

inductive Mode where
  | Navigate | SameOrigin | NoCors | Cors
deriving DecidableEq, Repr

inductive Credentials where
  | Omit | SameOrigin | Include
deriving DecidableEq, Repr

inductive Cache where
  | Default | NoStore | Reload | NoCache | ForceCache | OnlyIfCached
deriving DecidableEq, Repr

inductive Redirect where
  | Follow | Error | Manual
deriving DecidableEq, Repr

/-- Modelled from the spec: `ReferrerPolicy.h` is not among the sampled
sources; FetchOptions.h only references the type and its `EmptyString`
member (line 55).  It is an enumeration; the constructor set below is
immaterial to the claims, which treat the field generically. -/
inductive ReferrerPolicy where
  | EmptyString | NoReferrer | NoReferrerWhenDowngrade | SameOrigin | Origin
  | StrictOrigin | OriginWhenCrossOrigin | StrictOriginWhenCrossOrigin | UnsafeUrl
deriving DecidableEq, Repr

/-- The FetchOptions fields (FetchOptions.h lines 50-57); `String` models
WTF::String. -/
structure FetchOptions where
  destination : Destination
  mode : Mode
  credentials : Credentials
  cache : Cache
  redirect : Redirect
  referrerPolicy : ReferrerPolicy
  integrity : String
  keepAlive : Bool
deriving DecidableEq, Repr

/-- Modelled from the spec: the Encoder/Decoder template parameters of
`FetchOptions::encode`/`decode` (WTF IPC coders) are not among the
sampled sources.  A coder stream is modelled as a list of typed items;
`decoder.decode(x)` for a given field type consumes the head item when
it has that type and fails otherwise (failure covers both a malformed
item and an exhausted stream). -/
inductive EncItem where
  | dst (d : Destination)
  | mde (m : Mode)
  | crd (c : Credentials)
  | cch (c : Cache)
  | rdr (r : Redirect)
  | rfp (r : ReferrerPolicy)
  | strv (s : String)
  | boolv (b : Bool)
deriving DecidableEq, Repr

def decodeDestination : List EncItem → Option (Destination × List EncItem)
  | .dst d :: rest => some (d, rest)
  | _ => none

def decodeMode : List EncItem → Option (Mode × List EncItem)
  | .mde m :: rest => some (m, rest)
  | _ => none

def decodeCredentials : List EncItem → Option (Credentials × List EncItem)
  | .crd c :: rest => some (c, rest)
  | _ => none

def decodeCache : List EncItem → Option (Cache × List EncItem)
  | .cch c :: rest => some (c, rest)
  | _ => none

def decodeRedirect : List EncItem → Option (Redirect × List EncItem)
  | .rdr r :: rest => some (r, rest)
  | _ => none

def decodeReferrerPolicy : List EncItem → Option (ReferrerPolicy × List EncItem)
  | .rfp r :: rest => some (r, rest)
  | _ => none

def decodeString : List EncItem → Option (String × List EncItem)
  | .strv s :: rest => some (s, rest)
  | _ => none

def decodeBool : List EncItem → Option (Bool × List EncItem)
  | .boolv b :: rest => some (b, rest)
  | _ => none

/-- `FetchOptions::encode` (FetchOptions.h lines 143-153): the eight
fields in declaration order. -/
def FetchOptions.encode (o : FetchOptions) : List EncItem :=
  [.dst o.destination, .mde o.mode, .crd o.credentials, .cch o.cache,
   .rdr o.redirect, .rfp o.referrerPolicy, .strv o.integrity, .boolv o.keepAlive]

/-- `FetchOptions::decode` (FetchOptions.h lines 155-199): decode each
field into a local, returning false on the first failure; only when all
eight succeed are they assigned into `options`.  The result is the
returned bool paired with the final value of `options`. -/
def FetchOptions.decode (stream : List EncItem) (options : FetchOptions) :
    Bool × FetchOptions :=
  match decodeDestination stream with
  | none => (false, options)
  | some (destination, s1) =>
    match decodeMode s1 with
    | none => (false, options)
    | some (mode, s2) =>
      match decodeCredentials s2 with
      | none => (false, options)
      | some (credentials, s3) =>
        match decodeCache s3 with
        | none => (false, options)
        | some (cache, s4) =>
          match decodeRedirect s4 with
          | none => (false, options)
          | some (redirect, s5) =>
            match decodeReferrerPolicy s5 with
            | none => (false, options)
            | some (referrerPolicy, s6) =>
              match decodeString s6 with
              | none => (false, options)
              | some (integrity, s7) =>
                match decodeBool s7 with
                | none => (false, options)
                | some (keepAlive, _) =>
                  (true, { destination := destination, mode := mode,
                           credentials := credentials, cache := cache,
                           redirect := redirect, referrerPolicy := referrerPolicy,
                           integrity := integrity, keepAlive := keepAlive })

/-- C10: decoding the stream produced by `FetchOptions::encode` succeeds
and returns a FetchOptions equal to the original in all eight fields
(first conjunct), and whenever decode reports failure the output
FetchOptions argument is left entirely unmodified (second conjunct). -/
theorem fetchOptions_decode_encode :
    (∀ o options : FetchOptions, FetchOptions.decode (FetchOptions.encode o) options = (true, o)) ∧
    (∀ (stream : List EncItem) (options : FetchOptions),
      (FetchOptions.decode stream options).1 = false →
      (FetchOptions.decode stream options).2 = options) := by
  constructor
  · intro o options
    rfl
  · intro stream options h
    unfold FetchOptions.decode at h ⊢
    repeat' split at h
    all_goals simp_all

theorem fetchOptions_decode_encode_witness :
    FetchOptions.decode
        (FetchOptions.encode ⟨.Audio, .Cors, .Include, .NoStore, .Manual,
          .UnsafeUrl, "sha", true⟩)
        ⟨.EmptyString, .NoCors, .Omit, .Default, .Follow, .EmptyString, "", false⟩ =
      (true, ⟨.Audio, .Cors, .Include, .NoStore, .Manual, .UnsafeUrl, "sha", true⟩) ∧
    (FetchOptions.decode [EncItem.boolv true]
        ⟨.EmptyString, .NoCors, .Omit, .Default, .Follow, .EmptyString, "", false⟩).2 =
      ⟨.EmptyString, .NoCors, .Omit, .Default, .Follow, .EmptyString, "", false⟩ :=
  ⟨fetchOptions_decode_encode.1
     ⟨.Audio, .Cors, .Include, .NoStore, .Manual, .UnsafeUrl, "sha", true⟩
     ⟨.EmptyString, .NoCors, .Omit, .Default, .Follow, .EmptyString, "", false⟩,
   fetchOptions_decode_encode.2 [EncItem.boolv true]
     ⟨.EmptyString, .NoCors, .Omit, .Default, .Follow, .EmptyString, "", false⟩ rfl⟩

end WebCore
